import Mathlib

/-!
Shallow embedding of the Bacchus BAC estimator (src/src/App.tsx).

Numbers are modelled as exact rationals (ℚ): the source computes over
real-valued scalars and the specification states all properties in exact
real arithmetic.  Each definition below mirrors one constant or function
of the source file.
-/

/- Constants from App.tsx lines 5–12. -/

def ETHANOL_DENSITY : ℚ := 0.789

def R_MALE : ℚ := 0.68

def R_FEMALE : ℚ := 0.55

def BETA : ℚ := 0.15

def LEGAL_LIMIT : ℚ := 0.5

/-- Drink record (interface Drink). -/
structure Drink where
  id : String
  label : String
  volumeMl : ℚ
  abv : ℚ
deriving DecidableEq

/-- Sex category (type Sex = "male" | "female"). -/
inductive Sex where
  | male
  | female
deriving DecidableEq

/-- `const r = sex === "male" ? R_MALE : R_FEMALE;` -/
def rOf (sex : Sex) : ℚ :=
  if sex = Sex.male then R_MALE else R_FEMALE

/-- `gramsPureAlcohol` memo: `drinks.reduce((sum, d) => sum + d.volumeMl * (d.abv / 100) * ETHANOL_DENSITY, 0)`. -/
def gramsPureAlcohol (drinks : List Drink) : ℚ :=
  drinks.foldl (fun sum d => sum + d.volumeMl * (d.abv / 100) * ETHANOL_DENSITY) 0

/-- `peakBAC` memo: `if (!weight || weight <= 0) return 0; return gramsPureAlcohol / (weight * r);`
(over ℚ the falsy test `!weight` means `weight = 0`, subsumed by `weight ≤ 0`). -/
def peakBAC (grams weight : ℚ) (sex : Sex) : ℚ :=
  if weight ≤ 0 then 0 else grams / (weight * rOf sex)

/-- `currentBAC` memo: `Math.max(0, peakBAC - BETA * Math.max(0, hoursSinceStart))`. -/
def currentBAC (peak elapsedHours : ℚ) : ℚ :=
  max 0 (peak - BETA * max 0 elapsedHours)

/-- `hoursToLegal` memo: `if (currentBAC <= LEGAL_LIMIT) return 0; return (currentBAC - LEGAL_LIMIT) / BETA;`. -/
def hoursToLegal (bac : ℚ) : ℚ :=
  if bac ≤ LEGAL_LIMIT then 0 else (bac - LEGAL_LIMIT) / BETA

/-- `hoursToZero` memo: `currentBAC / BETA`. -/
def hoursToZero (bac : ℚ) : ℚ :=
  bac / BETA

/-- The five derived outputs, as the component's memo chain produces them. -/
structure EstimationResult where
  gramsPureAlcohol : ℚ
  peakBAC : ℚ
  currentBAC : ℚ
  hoursToLegalThreshold : ℚ
  hoursToZero : ℚ
deriving DecidableEq

/-- The composed estimator: the memo chain of the component
(grams → peak → current → the two time estimates). -/
def estimate (drinks : List Drink) (sex : Sex) (weightKg elapsedHours : ℚ) :
    EstimationResult :=
  let grams := gramsPureAlcohol drinks
  let peak := peakBAC grams weightKg sex
  let current := currentBAC peak elapsedHours
  { gramsPureAlcohol := grams
    peakBAC := peak
    currentBAC := current
    hoursToLegalThreshold := hoursToLegal current
    hoursToZero := hoursToZero current }

/-- `Partial<Drink>`: each field optionally overridden. -/
structure DrinkPatch where
  id : Option String
  label : Option String
  volumeMl : Option ℚ
  abv : Option ℚ

/-- Object spread `{ ...d, ...patch }`: a field present in the patch wins. -/
def applyPatch (d : Drink) (p : DrinkPatch) : Drink :=
  { id := p.id.getD d.id
    label := p.label.getD d.label
    volumeMl := p.volumeMl.getD d.volumeMl
    abv := p.abv.getD d.abv }

/-- `updateDrink`: `s.map((d) => (d.id === id ? { ...d, ...patch } : d))`. -/
def updateDrink (drinks : List Drink) (i : String) (patch : DrinkPatch) : List Drink :=
  drinks.map fun d => if d.id = i then applyPatch d patch else d

/-- `removeDrink`: `s.filter((d) => d.id !== id)`. -/
def removeDrink (drinks : List Drink) (i : String) : List Drink :=
  drinks.filter fun d => d.id ≠ i

/-- JavaScript `Math.round`: round half toward positive infinity. -/
def jsRound (x : ℚ) : ℤ :=
  ⌊x + 1 / 2⌋

/-- JavaScript `m.toString().padStart(2, "0")`. -/
def padStart2 (s : String) : String :=
  if 2 ≤ s.length then s else String.mk (List.replicate (2 - s.length) '0' ++ s.data)

/-- `fmtHM`: `totalMinutes = Math.round(n * 60); h = Math.floor(totalMinutes / 60);
m = totalMinutes % 60;` rendered as `` `${h}h ${m.toString().padStart(2, "0")}m` ``.
JavaScript `%` is truncating remainder, hence `Int.tmod`. -/
def fmtHM (n : ℚ) : String :=
  let totalMinutes := jsRound (n * 60)
  let h := ⌊(totalMinutes : ℚ) / 60⌋
  let m := Int.tmod totalMinutes 60
  toString h ++ "h " ++ padStart2 (toString m) ++ "m"

/-! ### Helper lemmas -/

/-- The `reduce` accumulator pattern is summation of a mapped list. -/
theorem foldlAdd (f : Drink → ℚ) :
    ∀ (l : List Drink) (a : ℚ),
      l.foldl (fun s d => s + f d) a = a + (l.map f).sum := by
  intro l
  induction l with
  | nil => intro a; simp
  | cons d t ih => intro a; simp [ih]; ring

theorem gramsPureAlcohol_eq_sum (l : List Drink) :
    gramsPureAlcohol l
      = (l.map fun d => d.volumeMl * (d.abv / 100) * ETHANOL_DENSITY).sum := by
  have h := foldlAdd (fun d => d.volumeMl * (d.abv / 100) * ETHANOL_DENSITY) l 0
  simpa [gramsPureAlcohol] using h

/-- C1: Grams of pure alcohol are the sum over drinks of
volumeMl × (abv/100) × 0.789; the empty drink list yields grams 0 and all
five outputs of the estimator are 0. -/
theorem grams_sum_and_empty_all_zero :
    (∀ drinks : List Drink,
      gramsPureAlcohol drinks
        = (drinks.map fun d => d.volumeMl * (d.abv / 100) * (0.789 : ℚ)).sum) ∧
    gramsPureAlcohol [] = 0 ∧
    ∀ (sex : Sex) (w h : ℚ), estimate [] sex w h = ⟨0, 0, 0, 0, 0⟩ := by
  refine ⟨fun drinks => gramsPureAlcohol_eq_sum drinks, rfl, ?_⟩
  intro sex w h
  have hgrams : gramsPureAlcohol [] = 0 := rfl
  have hpeak : peakBAC 0 w sex = 0 := by
    by_cases hw : w ≤ 0 <;> simp [peakBAC, hw]
  have hcur : currentBAC 0 h = 0 := by
    have hb : 0 ≤ BETA * max 0 h :=
      mul_nonneg (by norm_num [BETA]) (le_max_left 0 h)
    simp [currentBAC]
    linarith
  simp [estimate, hgrams, hpeak, hcur, hoursToLegal, hoursToZero, LEGAL_LIMIT]
  norm_num

/-- C2: Peak BAC is 0 when weight ≤ 0 and otherwise grams / (weight × r(sex)),
with r(male) = 0.68 and r(female) = 0.55. -/
theorem peakBAC_spec (grams weight : ℚ) (sex : Sex) :
    (weight ≤ 0 → peakBAC grams weight sex = 0) ∧
    (0 < weight → peakBAC grams weight sex = grams / (weight * rOf sex)) ∧
    rOf Sex.male = 0.68 ∧ rOf Sex.female = 0.55 :=
  ⟨fun h => by simp [peakBAC, h],
   fun h => by simp [peakBAC, not_le.mpr h],
   rfl, rfl⟩

/-- C2 witness. -/
theorem peakBAC_spec_witness :
    peakBAC 10 (-1) Sex.male = 0 ∧
    peakBAC 10 75 Sex.female = 10 / (75 * rOf Sex.female) :=
  ⟨(peakBAC_spec 10 (-1) Sex.male).1 (by norm_num),
   (peakBAC_spec 10 75 Sex.female).2.1 (by norm_num)⟩

/-- C3: Current BAC equals max(0, peak − 0.15 × max(0, elapsed)) and negative
elapsed hours behave exactly like 0. -/
theorem currentBAC_spec (peak h : ℚ) :
    currentBAC peak h = max 0 (peak - 0.15 * max 0 h) ∧
    (h < 0 → currentBAC peak h = currentBAC peak 0) := by
  refine ⟨rfl, fun hh => ?_⟩
  simp [currentBAC, max_eq_left hh.le]

/-- C3 witness. -/
theorem currentBAC_spec_witness : currentBAC 1 (-2) = currentBAC 1 0 :=
  (currentBAC_spec 1 (-2)).2 (by norm_num)

/-- C4: hoursToLegal is 0 iff currentBAC ≤ 0.5 (inclusive boundary), and for
currentBAC > 0.5 it equals (currentBAC − 0.5)/0.15 and is strictly positive. -/
theorem hoursToLegal_spec (bac : ℚ) :
    (hoursToLegal bac = 0 ↔ bac ≤ 0.5) ∧
    (0.5 < bac → hoursToLegal bac = (bac - 0.5) / 0.15 ∧ 0 < hoursToLegal bac) := by
  have hform : 0.5 < bac → hoursToLegal bac = (bac - 0.5) / 0.15 := by
    intro h
    have hnot : ¬ bac ≤ LEGAL_LIMIT := by rw [LEGAL_LIMIT]; exact not_le.mpr h
    unfold hoursToLegal
    rw [if_neg hnot, LEGAL_LIMIT, BETA]
  constructor
  · constructor
    · intro h0
      by_contra hgt
      push_neg at hgt
      have hpos : 0 < (bac - 0.5) / 0.15 := by
        apply div_pos <;> [linarith; norm_num]
      rw [hform hgt] at h0
      linarith
    · intro hle
      have : bac ≤ LEGAL_LIMIT := by rw [LEGAL_LIMIT]; norm_num at hle ⊢; linarith
      simp [hoursToLegal, this]
  · intro h
    refine ⟨hform h, ?_⟩
    rw [hform h]
    apply div_pos <;> [linarith; norm_num]

/-- C4 witness. -/
theorem hoursToLegal_spec_witness :
    hoursToLegal 0.5 = 0 ∧ hoursToLegal 0.8 = (0.8 - 0.5) / 0.15 :=
  ⟨(hoursToLegal_spec 0.5).1.mpr (by norm_num),
   ((hoursToLegal_spec 0.8).2 (by norm_num)).1⟩

/-- C5: hoursToZero equals currentBAC/0.15, is 0 at 0, and above the legal
threshold equals hoursToLegal + 0.5/0.15. -/
theorem hoursToZero_spec (bac : ℚ) :
    hoursToZero bac = bac / 0.15 ∧ hoursToZero 0 = 0 ∧
    (0.5 < bac → hoursToZero bac = hoursToLegal bac + 0.5 / 0.15) := by
  refine ⟨rfl, by simp [hoursToZero], fun h => ?_⟩
  have hleg : hoursToLegal bac = (bac - 0.5) / 0.15 := by
    have hnot : ¬ bac ≤ LEGAL_LIMIT := by rw [LEGAL_LIMIT]; exact not_le.mpr h
    unfold hoursToLegal
    rw [if_neg hnot, LEGAL_LIMIT, BETA]
  rw [hleg, hoursToZero, BETA]
  show bac / 0.15 = (bac - 0.5) / 0.15 + 0.5 / 0.15
  ring

/-- C5 witness. -/
theorem hoursToZero_spec_witness :
    hoursToZero 0.8 = hoursToLegal 0.8 + 0.5 / 0.15 :=
  ((hoursToZero_spec 0.8).2.2 (by norm_num))

/-- C6: For fixed peak BAC, current BAC is non-increasing in elapsed hours,
never negative, and exactly 0 once t ≥ peak/0.15. -/
theorem currentBAC_monotone (peak h1 h2 t : ℚ) :
    (h1 < h2 → currentBAC peak h2 ≤ currentBAC peak h1) ∧
    0 ≤ currentBAC peak h1 ∧
    (peak / 0.15 ≤ t → currentBAC peak t = 0) := by
  refine ⟨fun hlt => ?_, le_max_left 0 _, fun ht => ?_⟩
  · have hm : max 0 h1 ≤ max 0 h2 := max_le_max le_rfl hlt.le
    have hB : (0 : ℚ) ≤ BETA := by norm_num [BETA]
    show max 0 (peak - BETA * max 0 h2) ≤ max 0 (peak - BETA * max 0 h1)
    exact max_le_max le_rfl (sub_le_sub_left (mul_le_mul_of_nonneg_left hm hB) peak)
  · have h15 : (0 : ℚ) < 0.15 := by norm_num
    rw [div_le_iff₀ h15] at ht
    unfold currentBAC
    rcases le_or_lt 0 t with h0 | h0
    · rw [max_eq_right h0, BETA]
      apply max_eq_left
      linarith
    · rw [max_eq_left h0.le, BETA]
      apply max_eq_left
      have : t * 0.15 < 0 := mul_neg_of_neg_of_pos h0 (by norm_num)
      linarith

/-- C6 witness. -/
theorem currentBAC_monotone_witness :
    currentBAC 0.3 2 ≤ currentBAC 0.3 1 ∧ currentBAC 0.3 2 = 0 :=
  ⟨(currentBAC_monotone 0.3 1 2 2).1 (by norm_num),
   (currentBAC_monotone 0.3 1 2 2).2.2 (by norm_num)⟩

/-- C7: Pure-alcohol grams are additive over list concatenation and depend
only on the multiset of (volume, abv) pairs. -/
theorem gramsPureAlcohol_linear (l1 l2 l3 l4 : List Drink)
    (_hrange : ∀ d ∈ l1 ++ l2, 0 ≤ d.volumeMl ∧ 0 ≤ d.abv ∧ d.abv ≤ 100) :
    gramsPureAlcohol (l1 ++ l2) = gramsPureAlcohol l1 + gramsPureAlcohol l2 ∧
    ((l3.map fun d => (d.volumeMl, d.abv)).Perm (l4.map fun d => (d.volumeMl, d.abv)) →
      gramsPureAlcohol l3 = gramsPureAlcohol l4) := by
  constructor
  · rw [gramsPureAlcohol_eq_sum, gramsPureAlcohol_eq_sum, gramsPureAlcohol_eq_sum,
      List.map_append, List.sum_append]
  · intro hperm
    have key : ∀ l : List Drink,
        gramsPureAlcohol l
          = ((l.map fun d => (d.volumeMl, d.abv)).map
              fun p => p.1 * (p.2 / 100) * ETHANOL_DENSITY).sum := by
      intro l
      rw [gramsPureAlcohol_eq_sum, List.map_map]
      rfl
    rw [key l3, key l4]
    exact (hperm.map _).sum_eq

/-- C7 witness. -/
theorem gramsPureAlcohol_linear_witness :
    gramsPureAlcohol ([⟨"a", "A", 500, 5⟩] ++ [⟨"b", "B", 250, 40⟩])
      = gramsPureAlcohol [⟨"a", "A", 500, 5⟩] + gramsPureAlcohol [⟨"b", "B", 250, 40⟩] ∧
    gramsPureAlcohol [⟨"a", "A", 500, 5⟩, ⟨"b", "B", 250, 40⟩]
      = gramsPureAlcohol [⟨"b", "B", 250, 40⟩, ⟨"a", "A", 500, 5⟩] := by
  have T := gramsPureAlcohol_linear [⟨"a", "A", 500, 5⟩] [⟨"b", "B", 250, 40⟩]
    [⟨"a", "A", 500, 5⟩, ⟨"b", "B", 250, 40⟩] [⟨"b", "B", 250, 40⟩, ⟨"a", "A", 500, 5⟩]
    (by intro d hd; simp at hd; rcases hd with h | h <;> subst h <;> norm_num)
  exact ⟨T.1, T.2 (by simp only [List.map]; exact List.Perm.swap _ _ _)⟩

/-- C8: The concrete scenario of one 500 mL, 5 % drink for a 75 kg male at
elapsed 0: grams 19.725, peak = current = 19.725/(75×0.68), hoursToLegal 0,
hoursToZero = peak/0.15 ≈ 2.578. -/
theorem estimate_beer_male_75 :
    estimate [{ id := "b1", label := "beer", volumeMl := 500, abv := 5 }] Sex.male 75 0
      = { gramsPureAlcohol := 19.725
          peakBAC := 19.725 / (75 * 0.68)
          currentBAC := 19.725 / (75 * 0.68)
          hoursToLegalThreshold := 0
          hoursToZero := 19.725 / (75 * 0.68) / 0.15 } ∧
    |19.725 / (75 * 0.68) / 0.15 - 2.578| < (0.001 : ℚ) := by
  constructor
  · unfold estimate gramsPureAlcohol peakBAC currentBAC hoursToLegal hoursToZero rOf
    simp only [EstimationResult.mk.injEq, List.foldl]
    norm_num [ETHANOL_DENSITY, R_MALE, BETA, LEGAL_LIMIT, max_def]
  · rw [abs_lt]
    constructor <;> norm_num

/-- Frame helper: when no drink in the list has the given id, the map of
`updateDrink` is the identity. -/
theorem updateDrink_no_match (i : String) (p : DrinkPatch) :
    ∀ l : List Drink, (∀ d ∈ l, d.id ≠ i) → updateDrink l i p = l := by
  intro l
  induction l with
  | nil => intro _; rfl
  | cons d t ih =>
    intro hall
    have hd : d.id ≠ i := hall d (List.mem_cons_self d t)
    have ht : updateDrink t i p = t := ih fun x hx => hall x (List.mem_cons_of_mem d hx)
    show (if d.id = i then applyPatch d p else d) :: updateDrink t i p = d :: t
    rw [if_neg hd, ht]

/-- C10: updateDrink leaves drinks with a different id unchanged and preserves
length and order (identity when no drink matches); removeDrink removes exactly
the entries with the given id and keeps the rest in relative order. -/
theorem updateDrink_removeDrink_frame (l : List Drink) (i : String) (p : DrinkPatch) :
    (updateDrink l i p).length = l.length ∧
    (∀ (n : ℕ) (d : Drink), l[n]? = some d → d.id ≠ i → (updateDrink l i p)[n]? = some d) ∧
    ((∀ d ∈ l, d.id ≠ i) → updateDrink l i p = l) ∧
    (removeDrink l i).Sublist l ∧
    (∀ d : Drink, d ∈ removeDrink l i ↔ d ∈ l ∧ d.id ≠ i) := by
  refine ⟨List.length_map _ _, ?_, updateDrink_no_match i p l, List.filter_sublist _, ?_⟩
  · intro n d hn hid
    rw [updateDrink, List.getElem?_map _ l n, hn]
    simp [hid]
  · intro d
    rw [removeDrink]
    simp [List.mem_filter]

/-- C10 witness. -/
theorem updateDrink_removeDrink_frame_witness :
    (updateDrink [⟨"a", "A", 500, 5⟩, ⟨"b", "B", 250, 40⟩] "a"
        ⟨none, none, some 330, none⟩)[1]? = some ⟨"b", "B", 250, 40⟩ ∧
    ⟨"b", "B", 250, 40⟩ ∈ removeDrink [⟨"a", "A", 500, 5⟩, ⟨"b", "B", 250, 40⟩] "a" := by
  have T := updateDrink_removeDrink_frame [⟨"a", "A", 500, 5⟩, ⟨"b", "B", 250, 40⟩] "a"
    ⟨none, none, some 330, none⟩
  refine ⟨T.2.1 1 ⟨"b", "B", 250, 40⟩ rfl (by decide), ?_⟩
  exact (T.2.2.2.2 ⟨"b", "B", 250, 40⟩).mpr ⟨by simp, by decide⟩

/-- C9: For non-negative hours n, fmtHM renders "Hh MMm" with
minutes = round(n × 60), H = floor(minutes/60), M = minutes mod 60
(M zero-padded); for n aligned to k whole minutes the rendered fields
recombine to exactly k minutes (round-trip without drift). -/
theorem fmtHM_spec (n : ℚ) (hn : 0 ≤ n) :
    fmtHM n
      = toString ((jsRound (n * 60)).toNat / 60) ++ "h "
          ++ padStart2 (toString ((jsRound (n * 60)).toNat % 60)) ++ "m" ∧
    ∀ k : ℕ, n = (k : ℚ) / 60 →
      (jsRound (n * 60)).toNat = k ∧ 60 * (k / 60) + k % 60 = k := by
  have ht0 : 0 ≤ jsRound (n * 60) := by
    apply Int.le_floor.mpr
    have : (0 : ℚ) ≤ n * 60 := mul_nonneg hn (by norm_num)
    push_cast
    linarith
  obtain ⟨m, hm⟩ : ∃ m : ℕ, jsRound (n * 60) = (m : ℤ) :=
    ⟨(jsRound (n * 60)).toNat, (Int.toNat_of_nonneg ht0).symm⟩
  constructor
  · show toString ⌊((jsRound (n * 60) : ℤ) : ℚ) / 60⌋ ++ "h "
        ++ padStart2 (toString (Int.tmod (jsRound (n * 60)) 60)) ++ "m" = _
    rw [hm]
    have h1 : ⌊(((m : ℤ) : ℚ)) / 60⌋ = ((m / 60 : ℕ) : ℤ) := by
      rw [show (60 : ℚ) = ((60 : ℕ) : ℚ) from by norm_num,
        Rat.floor_intCast_div_natCast]
      exact (Int.ofNat_tdiv m 60).symm
    have h2 : Int.tmod ((m : ℤ)) 60 = ((m % 60 : ℕ) : ℤ) := rfl
    rw [h1, h2, Int.toNat_natCast]
    rfl
  · intro k hk
    subst hk
    have hr : ((k : ℚ)) / 60 * 60 = ((k : ℚ)) := div_mul_cancel₀ _ (by norm_num)
    have hfl : jsRound ((k : ℚ)) = (k : ℤ) := by
      apply Int.floor_eq_iff.mpr
      constructor
      · push_cast; linarith
      · push_cast; linarith
    rw [hr, hfl]
    exact ⟨Int.toNat_natCast k, Nat.div_add_mod k 60⟩

/-- C9 witness. -/
theorem fmtHM_spec_witness :
    fmtHM (7 / 4) = "1h 45m" ∧ (jsRound (7 / 4 * 60)).toNat = 105 := by
  have h := fmtHM_spec (7 / 4) (by norm_num)
  have h2 := (h.2 105 (by norm_num)).1
  refine ⟨?_, h2⟩
  rw [h.1, h2]
  rfl
